import Mathlib

/-
Verification of the wash shell commands (ls, mkdir, mv, import) of the
axiom repository: a shallow embedding of the command orchestrators, the
stat formatter and the parts of the environment they consume, together with
theorems about the commands' observable behaviour.  Filesystem operations
are modelled as a state-threaded oracle, and each command's run is a trace
of events (writes, filesystem calls, terminal close signals).
-/

set_option maxRecDepth 4000

/-- Error kinds of the error type used across the repository (spec section 7). -/
inductive ErrKind : Type
  | InvalidPath
  | TypeMismatch
  | NotFound
  | Duplicate
  | Missing
  | Runtime
  | Unknown
  deriving DecidableEq, Repr

/-- Modelled from the spec: the typed failure value (AxiomError, from
axiom/core/error, which is not under src/): an error kind plus a message
payload.  The commands only test an error's kind and forward the value. -/
structure AxErr : Type where
  kind : ErrKind
  msg : String
  deriving DecidableEq, Repr

/-- Modelled from the spec: printable rendering of an error, used by mkdir
for its per-target error lines (e.toString() in the source). -/
def errToString (e : AxErr) : String :=
  "AxiomError: " ++ (match e.kind with
    | ErrKind.InvalidPath => "InvalidPath"
    | ErrKind.TypeMismatch => "TypeMismatch"
    | ErrKind.NotFound => "NotFound"
    | ErrKind.Duplicate => "Duplicate"
    | ErrKind.Missing => "Missing"
    | ErrKind.Runtime => "Runtime"
    | ErrKind.Unknown => "Unknown") ++ ": " ++ e.msg

/-- Modelled from the spec: the mode bitmask values of Path.Mode
(axiom/fs/path, not under src/); distinct single bits, X marks an
executable entry and D a directory (spec glossary and section 3). -/
def ModeX : Nat := 1

/-- Modelled from the spec: the writable bit of the mode bitmask. -/
def ModeW : Nat := 2

/-- Modelled from the spec: the readable bit of the mode bitmask. -/
def ModeR : Nat := 4

/-- Modelled from the spec: the directory bit of the mode bitmask. -/
def ModeD : Nat := 8

/-- Modelled from the spec: metadata of one filesystem node (StatResult):
mode bitmask, modification time in epoch milliseconds, size, and an
optional signature present only for executables (spec section 3). -/
structure StatEntry : Type where
  mode : Nat
  mtime : Nat
  size : Nat
  signature : Option String
  deriving DecidableEq, Repr

/-- A directory listing, as the source consumes it: entry names mapped to
their stat entries (the source reads Object.keys and indexes back). -/
abbrev ListResult := List (String × StatEntry)

/-- Splitting a character list at every slash. -/
def splitSlash : List Char → List Char → List (List Char)
  | [], cur => [cur.reverse]
  | c :: cs, cur =>
    if c = '/' then cur.reverse :: splitSlash cs []
    else splitSlash cs (c :: cur)

/-- Modelled from the spec: splitting a path string into its segments,
part of the Path Resolver (spec section 4.1; axiom/fs/path is not under
src/). -/
def splitSegs (s : String) : List String :=
  ((splitSlash s.data []).filter (fun x => x ≠ [])).map (fun l => String.mk l)

/-- Modelled from the spec: resolving "." and ".." segments and dropping
redundant separators (spec section 4.1). -/
def normSegs (segs : List String) : List String :=
  segs.foldl
    (fun acc seg =>
      if seg = "." then acc
      else if seg = ".." then acc.dropLast
      else acc ++ [seg]) []

/-- Joining path segments with slashes. -/
def joinSlash : List String → String
  | [] => ""
  | [x] => x
  | x :: y :: xs => x ++ "/" ++ joinSlash (y :: xs)

/-- Modelled from the spec: assembling an absolute path string from its
segments (spec section 4.1). -/
def joinAbs (segs : List String) : String :=
  "/" ++ joinSlash segs

/-- Modelled from the spec: Path.abs — an absolute spec is normalized on
its own, a relative one is joined against the working directory first
(spec section 4.1). -/
def pathAbs (pwd spec : String) : String :=
  if spec.data.head? = some '/' then joinAbs (normSegs (splitSegs spec))
  else joinAbs (normSegs (splitSegs pwd ++ splitSegs spec))

/-- Modelled from the spec: Path.getParentPath — none at the root,
otherwise the path with its last segment dropped. -/
def parentPath (p : String) : Option String :=
  match splitSegs p with
  | [] => none
  | segs => some (joinAbs segs.dropLast)

/-- Modelled from the spec: Path.getBaseName — the last segment of a
path. -/
def getBaseName (p : String) : String :=
  (splitSegs p).getLastD ""

/-- The chain of ancestor paths created by the import command's recursive
parent creation, shortest first, ending with the path itself. -/
def pathPrefixes (p : String) : List String :=
  (List.range (splitSegs p).length).map (fun i => joinAbs ((splitSegs p).take (i + 1)))

/-- Modelled from the spec: zpad from wash/string_utils (not under src/) —
left-pads the decimal rendering of a number with zeros to the given
width, as needed for the YYYY-MM-DD rendering of spec section 4.3. -/
def zpad (n : Nat) (w : Nat) : String :=
  let s := toString n
  if s.length < w then String.mk (List.replicate (w - s.length) '0') ++ s else s

/-- Milliseconds per day. -/
def msPerDay : Nat := 86400000

/-- Civil-calendar decomposition of a day count since 1970-01-01 into
(year, month, day-of-month); the embedding fixes the rendering timezone to
UTC.  Valid for non-negative day counts (timestamps from 1970 on). -/
def civilOfDays (days : Nat) : Nat × Nat × Nat :=
  let z := days + 719468
  let era := z / 146097
  let doe := z % 146097
  let yoe := (doe - doe / 1460 + doe / 36524 - doe / 146096) / 365
  let y := yoe + era * 400
  let doy := doe - (365 * yoe + yoe / 4 - yoe / 100)
  let mp := (5 * doy + 2) / 153
  let d := doy - (153 * mp + 2) / 5 + 1
  let m := if mp < 10 then mp + 3 else mp - 9
  (if m ≤ 2 then y + 1 else y, m, d)

/-- Date.prototype.getFullYear of an epoch-milliseconds timestamp. -/
def getFullYear (ms : Nat) : Nat := (civilOfDays (ms / msPerDay)).1

/-- Date.prototype.getMonth of an epoch-milliseconds timestamp (0-based
month, as in JavaScript). -/
def getMonth (ms : Nat) : Nat := (civilOfDays (ms / msPerDay)).2.1 - 1

/-- Date.prototype.getDate of an epoch-milliseconds timestamp: the
calendar day of the month. -/
def getDate (ms : Nat) : Nat := (civilOfDays (ms / msPerDay)).2.2

/-- Date.prototype.getDay of an epoch-milliseconds timestamp: the index of
the day of the week (0 = Sunday); 1970-01-01 was a Thursday. -/
def getDay (ms : Nat) : Nat := (ms / msPerDay + 4) % 7

/-- The mtime rendering of formatStat, exactly as the source builds it:
full year, dash, zero-padded month+1, dash, zero-padded getDay() — the
day-of-week index, not the day of the month — then a space and the
localized time.  The locale-dependent Date.prototype.toLocaleTimeString is
abstracted as the function argument lt. -/
def mtimeString (lt : Nat → String) (ms : Nat) : String :=
  toString (getFullYear ms) ++ "-" ++ zpad (getMonth ms + 1) 2 ++ "-" ++
    zpad (getDay ms) 2 ++ " " ++ lt ms

/-- JSON escaping of one character (quote and backslash). -/
def jsonEscapeChar (c : Char) : String :=
  if c = '\\' then "\\\\" else if c = '"' then "\\\"" else String.singleton c

/-- JSON.stringify of a string value: the quoted, escaped literal. -/
def jsQuote (s : String) : String :=
  "\"" ++ String.join (s.data.map jsonEscapeChar) ++ "\""

/-- Modelled from the spec: Path.modeIntToString (axiom/fs/path, not under
src/) — the mode-to-display-string mapping of spec section 4.3, one letter
per set bit. -/
def modeIntToString (m : Nat) : String :=
  (if m &&& ModeD ≠ 0 then "d" else "") ++
  (if m &&& ModeR ≠ 0 then "r" else "") ++
  (if m &&& ModeW ≠ 0 then "w" else "") ++
  (if m &&& ModeX ≠ 0 then "x" else "")

/-- Lexicographic comparison of character lists by code point, the order
Array.prototype.sort's default comparator uses on the source's key
arrays. -/
def charListLe : List Char → List Char → Bool
  | [], _ => true
  | _ :: _, [] => false
  | c :: cs, d :: ds =>
    if c.toNat < d.toNat then true
    else if d.toNat < c.toNat then false
    else charListLe cs ds

/-- Lexicographic string comparison by code point. -/
def strLe (a b : String) : Bool := charListLe a.data b.data

/-- Insertion of a string into a sorted list, for the key sort. -/
def insertSorted (x : String) : List String → List String
  | [] => [x]
  | y :: ys => if strLe x y then x :: y :: ys else y :: insertSorted x ys

/-- Lexicographic sort of a list of strings, as Array.prototype.sort with
the default comparator behaves on the key arrays of the source. -/
def sortStrings : List String → List String
  | [] => []
  | x :: xs => insertSorted x (sortStrings xs)

/-- The property names of a stat entry as a JavaScript object: the three
always-present fields plus signature when present. -/
def objKeys (st : StatEntry) : List String :=
  ["mode", "mtime", "size"] ++ (match st.signature with
    | some _ => ["signature"]
    | none => [])

/-- Object.keys(stat).sort() of the source's formatStat. -/
def statKeys (st : StatEntry) : List String :=
  sortStrings (objKeys st)

/-- The key list formatStat actually renders, translating the branch on
the mode: exactly Path.Mode.X keeps only signature; any other mode (the
xor with Path.Mode.X is then nonzero) filters signature out. -/
def statFieldKeys (st : StatEntry) : List String :=
  if st.mode = ModeX then ["signature"]
  else if st.mode ^^^ ModeX ≠ 0 then (statKeys st).filter (fun n => n ≠ "signature")
  else statKeys st

/-- One rendered "key: value" pair of formatStat: mtime renders as the
date string, mode via modeIntToString, and every value goes through
JSON.stringify (an absent signature renders as undefined does in
JavaScript string concatenation). -/
def renderStatField (lt : Nat → String) (st : StatEntry) (k : String) : String :=
  k ++ ": " ++
    (if k = "mtime" then jsQuote (mtimeString lt st.mtime)
     else if k = "mode" then jsQuote (modeIntToString st.mode)
     else if k = "signature" then
       (match st.signature with
        | some s => jsQuote s
        | none => "undefined")
     else toString st.size)

/-- Array.prototype.join with the ", " separator. -/
def joinComma : List String → String
  | [] => ""
  | [x] => x
  | x :: y :: xs => x ++ ", " ++ joinComma (y :: xs)

/-- formatStat of the source: the sorted, mode-filtered keys rendered as
"key: value" pairs joined by ", ".  The locale time renderer is passed in
as lt. -/
def formatStat (lt : Nat → String) (st : StatEntry) : String :=
  joinComma ((statFieldKeys st).map (renderStatField lt st))

/-- Observable events of one command invocation: stdout writes, the
filesystem-manager calls performed, the browser file-picker lifecycle of
the import command, and the terminal close signals of the invocation
context. -/
inductive Evt : Type
  | ready
  | write (s : String)
  | listOp (path : String)
  | statOp (path : String)
  | mkdirOp (path : String)
  | moveOp (src dst : String)
  | writeFileOp (path : String)
  | createUI
  | destroyUI
  | closeOk
  | closeError (e : AxErr)
  deriving DecidableEq, Repr

/-- One file delivered by the browser file picker: its
webkitRelativePath when the browser supplies one, its plain name, and its
content. -/
structure ImportFile : Type where
  relativePath : Option String
  name : String
  content : String
  deriving DecidableEq, Repr

/-- The invocation context and environment a command runs against: parsed
arguments, flags, working directory, the locale time renderer, the
filesystem manager as a state-threaded oracle over an abstract state σ,
and the file-picker outcome for the import command (none models the
cancel heuristic firing with no prior selection).

Modelled from the spec: the filesystem manager interface and the
invocation context (spec sections 4.2 and 6) live outside src/; each
operation is one awaitable unit with exactly one resolution, embedded as a
function from the oracle state to a new state and a result.  Per the
spec's exit behaviour (one terminal outcome, and ls aborting with no
continuation to remaining targets), closeError ends the promise chain it
is returned into: the embedding stops a command's fold at that point. -/
structure Ctx (σ : Type) : Type where
  args : Option (List String)
  help : Bool
  file : Bool
  pwd : String
  lt : Nat → String
  fsList : σ → String → σ × Except AxErr ListResult
  fsStat : σ → String → σ × Except AxErr StatEntry
  fsMkdir : σ → String → σ × Except AxErr Unit
  fsMove : σ → String → String → σ × Except AxErr Unit
  fsWrite : σ → String → String → σ × Except AxErr Unit
  selection : Option (List ImportFile)

/-- Replaces the positional arguments of a context. -/
def setArgs {σ : Type} (cx : Ctx σ) (l : List String) : Ctx σ :=
  { cx with args := some l }

/-- The usage text of ls, as the source writes it. -/
def lsUsage : String :=
  "usage: ls [<path>]\r\nList a file or the contents of a directory.\r\n\r\nIf <path> is not provided it defaults to the current directory.\r\n"

/-- The usage text of mkdir, as the source writes it. -/
def mkdirUsage : String :=
  "usage: mkdir <path> ...\r\nCreate one or more new directories.\r\n\r\nAll parent directories must already exist.\r\n"

/-- The usage text of mv, as the source writes it. -/
def mvUsage : String :=
  "usage: mv <source> <destination>\r\nMove a file to a new location.\r\n\r\nIf both locations are on the same file system this will perform an\r\natomic move.  If not, it\x27ll perform a copy and delete (see `cp -h` \r\nfor the details on how copying works).\r\n"

/-- The usage text of the import command, as the source writes it. -/
def importUsage : String :=
  "usage: import [<target-directory>] [-f|--file]\r\nImport a directory from the local file system.\r\n\r\nIf <target-directory> is provided, the file(s) will be imported there.\r\nIf not, they will be imported into the current directory.\r\n\r\nImports a directory by default (if supported by browser).  If -f is\r\nprovided, only a single file is imported.\r\n"

/-- One entry line of a directory listing (the names.forEach body of
listPathSpec): the name, a slash for a directory or a space otherwise,
spaces padding the name to the longest name's width, three spaces, the
formatted stat, newline. -/
def dirEntryLine (lt : Nat → String) (longest : Nat) (name : String) (st : StatEntry) : String :=
  name ++ (if st.mode &&& ModeD ≠ 0 then "/" else " ") ++
    String.mk (List.replicate (longest - name.length) ' ') ++
    "   " ++ formatStat lt st ++ "\n"

/-- The single line the ls fallback writes for a non-directory path:
the base name, two spaces, the formatted stat, newline. -/
def fallbackStatLine (lt : Nat → String) (path : String) (st : StatEntry) : String :=
  getBaseName path ++ "  " ++ formatStat lt st ++ "\n"

/-- The stat entry of a named entry of a listing, as listResult[name]
reads it back. -/
def jsLookup (lr : ListResult) (name : String) : StatEntry :=
  match lr.find? (fun kv => kv.1 == name) with
  | some kv => kv.2
  | none => ⟨0, 0, 0, none⟩

/-- The text listPathSpec writes for one successfully listed directory:
the header line ("Listing of <quoted path>, " then "empty.", "1 entry:"
or "N entries:"), then one line per entry in sorted name order. -/
def listDirOutput (lt : Nat → String) (path : String) (lr : ListResult) : String :=
  let names := sortStrings (lr.map Prod.fst)
  let header := "Listing of " ++ jsQuote path ++ ", " ++
    (if names.length = 0 then "empty."
     else if names.length = 1 then "1 entry:"
     else toString names.length ++ " entries:") ++ "\n"
  match names with
  | [] => header
  | n0 :: rest =>
    let longest := (n0 :: rest).foldl
      (fun m n => if n.length > m then n.length else m) n0.length
    header ++ String.join ((n0 :: rest).map
      (fun name => dirEntryLine lt longest name (jsLookup lr name)))

/-- Processing of one ls target (listPathSpec): list the resolved path;
on success write the listing; on a TypeMismatch failure fall back to stat
and write the single stat line, closing with the error if the stat also
fails; on any other failure close with the error.  The returned flag is
whether the target's promise resolved (so the loop continues). -/
def lsProcessTarget {σ : Type} (cx : Ctx σ) (s : σ) (q : String) : σ × List Evt × Bool :=
  let path := pathAbs cx.pwd q
  match cx.fsList s path with
  | (s', Except.ok lr) =>
    (s', [Evt.listOp path, Evt.write (listDirOutput cx.lt path lr)], true)
  | (s', Except.error e) =>
    if e.kind = ErrKind.TypeMismatch then
      match cx.fsStat s' path with
      | (s'', Except.ok st) =>
        (s'', [Evt.listOp path, Evt.statOp path,
               Evt.write (fallbackStatLine cx.lt path st)], true)
      | (s'', Except.error e2) =>
        (s'', [Evt.listOp path, Evt.statOp path, Evt.closeError e2], false)
    else (s', [Evt.listOp path, Evt.closeError e], false)

/-- The listNext loop of ls over the remaining targets: each target only
begins after the previous one resolved; a close of the context ends the
chain. -/
def lsRunTargets {σ : Type} (cx : Ctx σ) : σ → List String → σ × List Evt × Bool
  | s, [] => (s, [], true)
  | s, q :: qs =>
    match lsProcessTarget cx s q with
    | (s', evs, true) =>
      match lsRunTargets cx s' qs with
      | (s'', evs', c) => (s'', evs ++ evs', c)
    | (s', evs, false) => (s', evs, false)

/-- The ls command: ready, then usage on the help flag, otherwise the
target loop over the positional arguments (defaulting to the working
directory), closing Ok once all targets resolved. -/
def lsMain {σ : Type} (cx : Ctx σ) (s0 : σ) : List Evt :=
  if cx.help = true then [Evt.ready, Evt.write lsUsage, Evt.closeOk]
  else
    match lsRunTargets cx s0 (cx.args.getD [cx.pwd]) with
    | (_, evs, c) => Evt.ready :: (evs ++ (if c then [Evt.closeOk] else []))

/-- The outcome listPathSpec would close with for one target under the
oracle state s: none when the target resolves (directory listed, or
fallback stat succeeded), otherwise the error it closes with. -/
def lsTargetErr {σ : Type} (cx : Ctx σ) (s : σ) (q : String) : Option AxErr :=
  let path := pathAbs cx.pwd q
  match cx.fsList s path with
  | (_, Except.ok _) => none
  | (s', Except.error e) =>
    if e.kind = ErrKind.TypeMismatch then
      match cx.fsStat s' path with
      | (_, Except.ok _) => none
      | (_, Except.error e2) => some e2
    else some e

/-- The error line mkdir writes for one failed target: the original spec
of the path and the error's rendering. -/
def mkdirErrLine (spec : String) (e : AxErr) : String :=
  "mkdir: " ++ spec ++ ": " ++ errToString e ++ "\n"

/-- The aggregate error mkdir closes with when any target failed. -/
def mkdirFailErr : AxErr :=
  ⟨ErrKind.Runtime, "Some directories could not be created"⟩

/-- Result of the mkdir target loop: final oracle state, the events, the
aggregate errors flag, and (as specification instrumentation, not an
observable of the source) the per-target outcomes in order. -/
structure MkRes (σ : Type) : Type where
  st : σ
  evts : List Evt
  errs : Bool
  results : List (String × Except AxErr Unit)

/-- The mkdirNext loop: resolve each target in argument order, attempt
mkdir, and on failure write the error line and raise the errors flag but
continue with the remaining targets. -/
def mkdirRun {σ : Type} (cx : Ctx σ) : σ → List String → MkRes σ
  | s, [] => ⟨s, [], false, []⟩
  | s, q :: qs =>
    let path := pathAbs cx.pwd q
    match cx.fsMkdir s path with
    | (s', Except.ok _) =>
      let r := mkdirRun cx s' qs
      ⟨r.st, Evt.mkdirOp path :: r.evts, r.errs, (q, Except.ok ()) :: r.results⟩
    | (s', Except.error e) =>
      let r := mkdirRun cx s' qs
      ⟨r.st, Evt.mkdirOp path :: Evt.write (mkdirErrLine q e) :: r.evts, true,
        (q, Except.error e) :: r.results⟩

/-- The mkdir command: ready, usage (closing Ok) when no target or help
was given, otherwise the target loop followed by one close — the
aggregate Runtime error if any target failed, Ok otherwise. -/
def mkdirMain {σ : Type} (cx : Ctx σ) (s0 : σ) : List Evt :=
  let list := cx.args.getD []
  if list.length = 0 ∨ cx.help = true then
    [Evt.ready, Evt.write mkdirUsage, Evt.closeOk]
  else
    let r := mkdirRun cx s0 list
    Evt.ready :: (r.evts ++ [if r.errs then Evt.closeError mkdirFailErr else Evt.closeOk])

/-- The mv command: ready, usage (closing Ok, no move) unless exactly two
positional arguments and no help flag were given; otherwise one move of
the two resolved paths, closing Ok on success and with the underlying
error on failure. -/
def mvMain {σ : Type} (cx : Ctx σ) (s0 : σ) : List Evt :=
  let list := cx.args.getD []
  if list.length ≠ 2 ∨ cx.help = true then
    [Evt.ready, Evt.write mvUsage, Evt.closeOk]
  else
    let f := pathAbs cx.pwd (list.getD 0 "")
    let t := pathAbs cx.pwd (list.getD 1 "")
    match (cx.fsMove s0 f t).2 with
    | Except.ok _ => [Evt.ready, Evt.moveOp f t, Evt.closeOk]
    | Except.error e => [Evt.ready, Evt.moveOp f t, Evt.closeError e]

/-- The mkdirParent_ chain of the import command over an explicit list of
ancestor paths, shortest first: each mkdir tolerates a Duplicate failure;
any other failure rejects the whole chain at once. -/
def mkdirSeq {σ : Type} (cx : Ctx σ) : σ → List String → σ × List Evt × Except AxErr Unit
  | s, [] => (s, [], Except.ok ())
  | s, q :: qs =>
    match cx.fsMkdir s q with
    | (s', Except.ok _) =>
      match mkdirSeq cx s' qs with
      | (s'', evs, r) => (s'', Evt.mkdirOp q :: evs, r)
    | (s', Except.error e) =>
      if e.kind = ErrKind.Duplicate then
        match mkdirSeq cx s' qs with
        | (s'', evs, r) => (s'', Evt.mkdirOp q :: evs, r)
      else (s', [Evt.mkdirOp q], Except.error e)

/-- ImportCommand.prototype.mkdirParent_: create the missing ancestors of
a path, shortest first, tolerating already-existing directories. -/
def mkdirParents {σ : Type} (cx : Ctx σ) (s : σ) (p : String) : σ × List Evt × Except AxErr Unit :=
  mkdirSeq cx s (pathPrefixes p)

/-- The relative path under which one selected file is imported: the
browser-supplied webkitRelativePath, or the plain file name when that is
absent or single-file mode was forced. -/
def importFileRel {σ : Type} (cx : Ctx σ) (f : ImportFile) : String :=
  match f.relativePath with
  | some rp => if cx.file = true then f.name else rp
  | none => f.name

/-- The final write of one imported file and the outcome its completer
resolves with. -/
def importWrite {σ : Type} (cx : Ctx σ) (s : σ) (path content : String) :
    σ × List Evt × Option AxErr :=
  match cx.fsWrite s path content with
  | (s', Except.ok _) => (s', [Evt.writeFileOp path], none)
  | (s', Except.error e) => (s', [Evt.writeFileOp path], some e)

/-- The per-file pipeline of the import command (onFileLoad): compute the
file's target path, stat its parent directory, on NotFound create the
missing ancestors, then write the file; the per-file outcome is none on
success and the failure value otherwise (the completer's resolution). -/
def importFileResult {σ : Type} (cx : Ctx σ) (s : σ) (dest : String) (f : ImportFile) :
    σ × List Evt × Option AxErr :=
  let path := pathAbs dest (importFileRel cx f)
  let parent := (parentPath path).getD "/"
  match cx.fsStat s parent with
  | (s', Except.ok _) =>
    (match importWrite cx s' path f.content with
     | (s'', evs, r) => (s'', Evt.statOp parent :: evs, r))
  | (s', Except.error e) =>
    if e.kind = ErrKind.NotFound then
      match mkdirParents cx s' parent with
      | (s'', evs, Except.ok _) =>
        (match importWrite cx s'' path f.content with
         | (s3, evs2, r) => (s3, Evt.statOp parent :: (evs ++ evs2), r))
      | (s'', evs, Except.error e1) => (s'', Evt.statOp parent :: evs, some e1)
    else (s', [Evt.statOp parent], some e)

/-- The selected files of one import, processed in order; the second
component collects the per-file outcomes the completers deliver to
Promise.all. -/
def importFiles {σ : Type} (cx : Ctx σ) : σ → String → List ImportFile →
    σ × List Evt × List (Option AxErr)
  | s, _, [] => (s, [], [])
  | s, dest, f :: fs =>
    match importFileResult cx s dest f with
    | (s', evs, r) =>
      match importFiles cx s' dest fs with
      | (s'', evs', rs) => (s'', evs ++ evs', r :: rs)

/-- The aggregate error of an import whose per-file results contained
failures: an Unknown error wrapping them. -/
def unknownErr (errs : List AxErr) : AxErr :=
  ⟨ErrKind.Unknown, String.intercalate "; " (errs.map (fun e => e.msg))⟩

/-- The import command: ready, usage (closing Ok) when more than one
positional argument or help was given; otherwise the picker UI is put up,
and either the cancel heuristic fires (no selection): the UI is removed
and the command closes with a Missing error — or files were selected:
every file is imported, the UI is removed, and the command closes Ok when
no per-file failure remains and with the aggregate Unknown error
otherwise. -/
def importMain {σ : Type} (cx : Ctx σ) (s0 : σ) : List Evt :=
  let list := cx.args.getD []
  if 1 < list.length ∨ cx.help = true then
    [Evt.ready, Evt.write importUsage, Evt.closeOk]
  else
    let dest := pathAbs cx.pwd (list.headD ".")
    match cx.selection with
    | none =>
      [Evt.ready, Evt.createUI, Evt.destroyUI,
       Evt.closeError ⟨ErrKind.Missing, "file selection"⟩]
    | some files =>
      match importFiles cx s0 dest files with
      | (_, evs, rs) =>
        let errors := rs.filterMap id
        [Evt.ready, Evt.createUI] ++ evs ++
          [Evt.destroyUI,
           if errors.isEmpty then Evt.closeOk else Evt.closeError (unknownErr errors)]

/-- Whether an event is a terminal close signal. -/
def isClose : Evt → Bool
  | Evt.closeOk => true
  | Evt.closeError _ => true
  | _ => false

/-- The number of terminal close signals of a trace. -/
def closeCount (evs : List Evt) : Nat := (evs.filter isClose).length

/-- Whether an event is a mkdir filesystem call. -/
def isMkdirOp : Evt → Bool
  | Evt.mkdirOp _ => true
  | _ => false

/-- Whether an event is a move filesystem call. -/
def isMoveOp : Evt → Bool
  | Evt.moveOp _ _ => true
  | _ => false

/-- Whether a per-target mkdir outcome is a failure. -/
def isErrRes : Except AxErr Unit → Bool
  | Except.error _ => true
  | Except.ok _ => false

/-- An event touches only the given paths when any list or stat call it
records is on one of them. -/
def evTouchesOnly (paths : List String) : Evt → Prop
  | Evt.listOp p => p ∈ paths
  | Evt.statOp p => p ∈ paths
  | _ => True

instance (paths : List String) (ev : Evt) : Decidable (evTouchesOnly paths ev) := by
  cases ev <;> simp only [evTouchesOnly] <;> infer_instance

theorem closeCount_append (a b : List Evt) :
    closeCount (a ++ b) = closeCount a + closeCount b := by
  simp [closeCount, List.filter_append]

theorem evTouchesOnly_mono {paths paths' : List String} (h : ∀ p ∈ paths, p ∈ paths')
    (ev : Evt) (hev : evTouchesOnly paths ev) : evTouchesOnly paths' ev := by
  cases ev <;> simp only [evTouchesOnly] at hev ⊢ <;> try exact h _ hev

/-- Behaviour of one ls target that resolves: the loop continues, no close
is signalled, and every filesystem call is on the target's resolved
path. -/
theorem lsProcessTarget_of_err_none {σ : Type} (cx : Ctx σ) (s : σ) (q : String)
    (h : lsTargetErr cx s q = none) :
    ∃ s' evs, lsProcessTarget cx s q = (s', evs, true) ∧ closeCount evs = 0 ∧
      ∀ ev ∈ evs, evTouchesOnly [pathAbs cx.pwd q] ev := by
  simp only [lsTargetErr] at h
  simp only [lsProcessTarget]
  rcases hL : cx.fsList s (pathAbs cx.pwd q) with ⟨s1, r⟩
  simp only [hL] at h ⊢
  cases r with
  | ok lr =>
    refine ⟨s1, _, rfl, by simp [closeCount, isClose], ?_⟩
    intro ev hev
    simp only [List.mem_cons, List.not_mem_nil, or_false] at hev
    rcases hev with rfl | rfl <;> simp [evTouchesOnly]
  | error e =>
    by_cases hk : e.kind = ErrKind.TypeMismatch
    · simp only [if_pos hk] at h ⊢
      rcases hS : cx.fsStat s1 (pathAbs cx.pwd q) with ⟨s2, r2⟩
      simp only [hS] at h ⊢
      cases r2 with
      | ok st =>
        refine ⟨s2, _, rfl, by simp [closeCount, isClose], ?_⟩
        intro ev hev
        simp only [List.mem_cons, List.not_mem_nil, or_false] at hev
        rcases hev with rfl | rfl | rfl <;> simp [evTouchesOnly]
      | error e2 => simp at h
    · simp only [if_neg hk] at h
      simp at h

/-- Behaviour of one ls target that fails hard: the non-recoverable error
is signalled as the sole close, ending the chain, and every filesystem
call is on the target's resolved path. -/
theorem lsProcessTarget_of_err_some {σ : Type} (cx : Ctx σ) (s : σ) (q : String) (e : AxErr)
    (h : lsTargetErr cx s q = some e) :
    ∃ s' evs, lsProcessTarget cx s q = (s', evs ++ [Evt.closeError e], false) ∧
      closeCount evs = 0 ∧
      ∀ ev ∈ evs ++ [Evt.closeError e], evTouchesOnly [pathAbs cx.pwd q] ev := by
  simp only [lsTargetErr] at h
  simp only [lsProcessTarget]
  rcases hL : cx.fsList s (pathAbs cx.pwd q) with ⟨s1, r⟩
  simp only [hL] at h ⊢
  cases r with
  | ok lr => simp at h
  | error e0 =>
    by_cases hk : e0.kind = ErrKind.TypeMismatch
    · simp only [if_pos hk] at h ⊢
      rcases hS : cx.fsStat s1 (pathAbs cx.pwd q) with ⟨s2, r2⟩
      simp only [hS] at h ⊢
      cases r2 with
      | ok st => simp at h
      | error e2 =>
        simp only [Option.some.injEq] at h
        subst h
        refine ⟨s2, [Evt.listOp (pathAbs cx.pwd q), Evt.statOp (pathAbs cx.pwd q)], rfl,
          by simp [closeCount, isClose], ?_⟩
        intro ev hev
        simp only [List.cons_append, List.nil_append, List.mem_cons,
          List.not_mem_nil, or_false] at hev
        rcases hev with rfl | rfl | rfl <;> simp [evTouchesOnly]
    · simp only [if_neg hk, Option.some.injEq] at h ⊢
      subst h
      refine ⟨s1, [Evt.listOp (pathAbs cx.pwd q)], rfl,
        by simp [closeCount, isClose], ?_⟩
      intro ev hev
      simp only [List.cons_append, List.nil_append, List.mem_cons,
        List.not_mem_nil, or_false] at hev
      rcases hev with rfl | rfl <;> simp [evTouchesOnly]

/-- The ls loop signals no close while it keeps going and exactly one
close when a target failed hard. -/
theorem lsRunTargets_closeCount {σ : Type} (cx : Ctx σ) :
    ∀ (l : List String) (s : σ),
      closeCount (lsRunTargets cx s l).2.1 =
        (if (lsRunTargets cx s l).2.2 = true then 0 else 1) := by
  intro l
  induction l with
  | nil => intro s; simp [lsRunTargets, closeCount]
  | cons q qs ih =>
    intro s
    simp only [lsRunTargets]
    rcases hOpt : lsTargetErr cx s q with _ | e
    · obtain ⟨s', evs, hpt, hc, -⟩ := lsProcessTarget_of_err_none cx s q hOpt
      simp only [hpt]
      rcases hr : lsRunTargets cx s' qs with ⟨s'', evs', c⟩
      have h2 := ih s'
      rw [hr] at h2
      simpa [closeCount_append, hc, Nat.zero_add] using h2
    · obtain ⟨s', evs, hpt, hc, -⟩ := lsProcessTarget_of_err_some cx s q e hOpt
      simp only [hpt]
      rw [closeCount_append, hc]
      simp [closeCount, isClose]

/-- Every list or stat call of the ls loop is on the resolved path of one
of its targets. -/
theorem lsRunTargets_touches {σ : Type} (cx : Ctx σ) :
    ∀ (l : List String) (s : σ), ∀ ev ∈ (lsRunTargets cx s l).2.1,
      evTouchesOnly (l.map (pathAbs cx.pwd)) ev := by
  intro l
  induction l with
  | nil => intro s ev hev; simp [lsRunTargets] at hev
  | cons q qs ih =>
    intro s ev hev
    simp only [lsRunTargets] at hev
    rcases hOpt : lsTargetErr cx s q with _ | e
    · obtain ⟨s', evs, hpt, -, ht⟩ := lsProcessTarget_of_err_none cx s q hOpt
      simp only [hpt] at hev
      rw [List.mem_append] at hev
      rcases hev with hev | hev
      · refine evTouchesOnly_mono ?_ ev (ht ev hev)
        intro p hp
        simp only [List.mem_singleton] at hp
        subst hp
        simp [List.map_cons]
      · refine evTouchesOnly_mono ?_ ev (ih s' ev hev)
        intro p hp
        simp only [List.map_cons, List.mem_cons]
        exact Or.inr hp
    · obtain ⟨s', evs, hpt, -, ht⟩ := lsProcessTarget_of_err_some cx s q e hOpt
      simp only [hpt] at hev
      refine evTouchesOnly_mono ?_ ev (ht ev hev)
      intro p hp
      simp only [List.mem_singleton] at hp
      subst hp
      simp [List.map_cons]

/-- Targets processed without failure prepend their events to whatever the
loop does on the remaining targets. -/
theorem lsRunTargets_append {σ : Type} (cx : Ctx σ) :
    ∀ (l₁ : List String) (s s1 : σ) (evs1 : List Evt),
      lsRunTargets cx s l₁ = (s1, evs1, true) → ∀ (l₂ : List String),
      lsRunTargets cx s (l₁ ++ l₂) =
        ((lsRunTargets cx s1 l₂).1, evs1 ++ (lsRunTargets cx s1 l₂).2.1,
          (lsRunTargets cx s1 l₂).2.2) := by
  intro l₁
  induction l₁ with
  | nil =>
    intro s s1 evs1 h l₂
    simp only [lsRunTargets, Prod.mk.injEq] at h
    obtain ⟨rfl, rfl, -⟩ := h
    rcases hr : lsRunTargets cx s l₂ with ⟨a, b, c⟩
    simp [hr]
  | cons q qs ih =>
    intro s s1 evs1 h l₂
    simp only [lsRunTargets] at h ⊢
    rcases hpt : lsProcessTarget cx s q with ⟨s', evs, c⟩
    simp only [hpt] at h
    cases c with
    | true =>
      dsimp only at h ⊢
      rcases hr : lsRunTargets cx s' qs with ⟨s'', evs', c'⟩
      rw [hr] at h
      simp only [Prod.mk.injEq] at h
      obtain ⟨rfl, rfl, hc⟩ := h
      subst hc
      have h2 := ih s' s'' evs' hr l₂
      simp only [List.append_eq]
      rw [h2]
      simp [List.append_assoc]
    | false =>
      dsimp only at h
      simp at h

/-- A hard failure on the first remaining target stops the loop at once:
the remaining targets play no part. -/
theorem lsRunTargets_stop {σ : Type} (cx : Ctx σ) (s : σ) (p : String) (e : AxErr)
    (h : lsTargetErr cx s p = some e) (l₂ : List String) :
    lsRunTargets cx s (p :: l₂) = lsRunTargets cx s [p] := by
  obtain ⟨s', evs, hpt, -, -⟩ := lsProcessTarget_of_err_some cx s p e h
  simp only [lsRunTargets, hpt]

/-- The mkdir loop signals no close itself; the per-target outcomes it
collects are its targets in order; its mkdir calls are on the targets'
resolved paths in argument order; the errors flag is raised exactly when
some target failed; and each failed target has its error line written. -/
theorem mkdirRun_spec {σ : Type} (cx : Ctx σ) :
    ∀ (l : List String) (s : σ),
      closeCount (mkdirRun cx s l).evts = 0 ∧
      (mkdirRun cx s l).evts.filter isMkdirOp =
        l.map (fun q => Evt.mkdirOp (pathAbs cx.pwd q)) ∧
      ((mkdirRun cx s l).errs = (mkdirRun cx s l).results.any (fun r => isErrRes r.2)) ∧
      ((mkdirRun cx s l).results.map Prod.fst = l) ∧
      (∀ q e, (q, Except.error e) ∈ (mkdirRun cx s l).results →
        Evt.write (mkdirErrLine q e) ∈ (mkdirRun cx s l).evts) := by
  intro l
  induction l with
  | nil =>
    intro s
    simp [mkdirRun, closeCount]
  | cons q qs ih =>
    intro s
    simp only [mkdirRun]
    rcases hM : cx.fsMkdir s (pathAbs cx.pwd q) with ⟨s', r⟩
    obtain ⟨ih1, ih2, ih3, ih4, ih5⟩ := ih s'
    cases r with
    | ok u =>
      refine ⟨?_, ?_, ?_, ?_, ?_⟩
      · simpa [closeCount, isClose] using ih1
      · simpa [List.filter_cons, isMkdirOp] using ih2
      · simpa [List.any_cons, isErrRes] using ih3
      · simpa using ih4
      · intro q' e' hmem
        simp only [List.mem_cons] at hmem
        rcases hmem with heq | hmem
        · cases heq
        · exact List.mem_cons_of_mem _ (ih5 q' e' hmem)
    | error e =>
      refine ⟨?_, ?_, ?_, ?_, ?_⟩
      · simpa [closeCount, isClose] using ih1
      · simpa [List.filter_cons, isMkdirOp] using ih2
      · simp [List.any_cons, isErrRes]
      · simpa using ih4
      · intro q' e' hmem
        simp only [List.mem_cons, Prod.mk.injEq] at hmem
        rcases hmem with ⟨rfl, he⟩ | hmem
        · simp only [Except.error.injEq] at he
          subst he
          simp
        · exact List.mem_cons_of_mem _ (List.mem_cons_of_mem _ (ih5 q' e' hmem))

@[simp] theorem closeCount_nil : closeCount [] = 0 := rfl

@[simp] theorem closeCount_cons (e : Evt) (l : List Evt) :
    closeCount (e :: l) = (if isClose e = true then 1 else 0) + closeCount l := by
  by_cases h : isClose e = true <;> simp [closeCount, List.filter_cons, h, Nat.add_comm]

/-- The ancestor-creation chain of the import command signals no close. -/
theorem mkdirSeq_closeCount {σ : Type} (cx : Ctx σ) :
    ∀ (l : List String) (s : σ), closeCount (mkdirSeq cx s l).2.1 = 0 := by
  intro l
  induction l with
  | nil => intro s; simp [mkdirSeq]
  | cons q qs ih =>
    intro s
    simp only [mkdirSeq]
    rcases hM : cx.fsMkdir s q with ⟨s', r⟩
    cases r with
    | ok u =>
      dsimp only
      rcases hS : mkdirSeq cx s' qs with ⟨s'', evs, rr⟩
      have h := ih s'
      rw [hS] at h
      simp [isClose, h]
    | error e =>
      by_cases hk : e.kind = ErrKind.Duplicate
      · simp only [if_pos hk]
        rcases hS : mkdirSeq cx s' qs with ⟨s'', evs, rr⟩
        have h := ih s'
        rw [hS] at h
        simp [isClose, h]
      · simp only [if_neg hk]
        simp [isClose]

/-- The write step of one imported file signals no close. -/
theorem importWrite_closeCount {σ : Type} (cx : Ctx σ) (s : σ) (path content : String) :
    closeCount (importWrite cx s path content).2.1 = 0 := by
  simp only [importWrite]
  rcases hW : cx.fsWrite s path content with ⟨s', r⟩
  cases r <;> simp [isClose]

/-- The per-file import pipeline signals no close; the completer alone
carries its outcome. -/
theorem importFileResult_closeCount {σ : Type} (cx : Ctx σ) (s : σ) (dest : String)
    (f : ImportFile) : closeCount (importFileResult cx s dest f).2.1 = 0 := by
  simp only [importFileResult]
  generalize pathAbs dest (importFileRel cx f) = path
  generalize (parentPath path).getD "/" = parent
  rcases hS : cx.fsStat s parent with ⟨s', r⟩
  cases r with
  | ok u =>
    dsimp only
    rcases hW : importWrite cx s' path f.content with ⟨s'', evs, rr⟩
    have h := importWrite_closeCount cx s' path f.content
    rw [hW] at h
    simp [isClose, h]
  | error e =>
    by_cases hk : e.kind = ErrKind.NotFound
    · simp only [if_pos hk]
      rcases hP : mkdirParents cx s' parent with ⟨s'', evs, rr⟩
      have hseq : closeCount evs = 0 := by
        have := mkdirSeq_closeCount cx (pathPrefixes parent) s'
        rw [show mkdirSeq cx s' (pathPrefixes parent) = (s'', evs, rr) from hP] at this
        simpa using this
      cases rr with
      | ok u =>
        dsimp only
        rcases hW : importWrite cx s'' path f.content with ⟨s3, evs2, r2⟩
        have h := importWrite_closeCount cx s'' path f.content
        rw [hW] at h
        simp [isClose, closeCount_append, hseq, h]
      | error e1 =>
        simp [isClose, hseq]
    · simp only [if_neg hk]
      simp [isClose]

/-- The whole selected-files phase of an import signals no close. -/
theorem importFiles_closeCount {σ : Type} (cx : Ctx σ) (dest : String) :
    ∀ (fs : List ImportFile) (s : σ), closeCount (importFiles cx s dest fs).2.1 = 0 := by
  intro fs
  induction fs with
  | nil => intro s; simp [importFiles]
  | cons f fs ih =>
    intro s
    simp only [importFiles]
    rcases hF : importFileResult cx s dest f with ⟨s', evs, r⟩
    have h1 : closeCount evs = 0 := by
      have := importFileResult_closeCount cx s dest f
      rw [hF] at this
      simpa using this
    rcases hR : importFiles cx s' dest fs with ⟨s'', evs', rs⟩
    have h2 : closeCount evs' = 0 := by
      have := ih s'
      rw [hR] at this
      simpa using this
    simp [closeCount_append, h1, h2]

/-- Any ls invocation signals exactly one terminal close. -/
theorem lsMain_closeCount {σ : Type} (cx : Ctx σ) (s0 : σ) :
    closeCount (lsMain cx s0) = 1 := by
  simp only [lsMain]
  split
  · simp [isClose]
  · rcases hr : lsRunTargets cx s0 (cx.args.getD [cx.pwd]) with ⟨s', evs, c⟩
    have h := lsRunTargets_closeCount cx (cx.args.getD [cx.pwd]) s0
    rw [hr] at h
    dsimp only at h ⊢
    cases c with
    | true =>
      simp only [if_pos rfl] at h
      simp [closeCount_append, isClose, h]
    | false =>
      simp only [Bool.false_eq_true, if_neg] at h
      simp [closeCount_append, isClose, h]

/-- Any mkdir invocation signals exactly one terminal close. -/
theorem mkdirMain_closeCount {σ : Type} (cx : Ctx σ) (s0 : σ) :
    closeCount (mkdirMain cx s0) = 1 := by
  simp only [mkdirMain]
  split
  · simp [isClose]
  · have h := (mkdirRun_spec cx (cx.args.getD []) s0).1
    cases he : (mkdirRun cx s0 (cx.args.getD [])).errs <;>
      simp [he, closeCount_append, isClose, h]

/-- Any mv invocation signals exactly one terminal close. -/
theorem mvMain_closeCount {σ : Type} (cx : Ctx σ) (s0 : σ) :
    closeCount (mvMain cx s0) = 1 := by
  simp only [mvMain]
  split
  · simp [isClose]
  · rcases hm : (cx.fsMove s0 (pathAbs cx.pwd ((cx.args.getD []).getD 0 ""))
        (pathAbs cx.pwd ((cx.args.getD []).getD 1 ""))).2 with _ | e <;>
      simp [hm, isClose]

/-- Any import invocation signals exactly one terminal close. -/
theorem importMain_closeCount {σ : Type} (cx : Ctx σ) (s0 : σ) :
    closeCount (importMain cx s0) = 1 := by
  simp only [importMain]
  split
  · simp [isClose]
  · rcases hsel : cx.selection with _ | files
    · simp [isClose]
    · simp only [hsel]
      rcases hf : importFiles cx s0 (pathAbs cx.pwd ((cx.args.getD []).headD ".")) files
        with ⟨s', evs, rs⟩
      simp only [hf]
      have h := importFiles_closeCount cx (pathAbs cx.pwd ((cx.args.getD []).headD ".")) files s0
      rw [hf] at h
      dsimp only at h ⊢
      cases he : (rs.filterMap id).isEmpty <;>
        simp [he, closeCount_append, isClose, h]

/-- C1: every invocation of every command (ls, mkdir, mv, import) signals
exactly one terminal outcome — one call of closeOk or closeError over the
whole invocation, never both and never neither, whatever the targets and
however the per-target operations fared. -/
theorem C1_exactly_one_close (σ₁ σ₂ σ₃ σ₄ : Type)
    (cx₁ : Ctx σ₁) (s₁ : σ₁) (cx₂ : Ctx σ₂) (s₂ : σ₂)
    (cx₃ : Ctx σ₃) (s₃ : σ₃) (cx₄ : Ctx σ₄) (s₄ : σ₄) :
    closeCount (lsMain cx₁ s₁) = 1 ∧ closeCount (mkdirMain cx₂ s₂) = 1 ∧
    closeCount (mvMain cx₃ s₃) = 1 ∧ closeCount (importMain cx₄ s₄) = 1 :=
  ⟨lsMain_closeCount cx₁ s₁, mkdirMain_closeCount cx₂ s₂,
   mvMain_closeCount cx₃ s₃, importMain_closeCount cx₄ s₄⟩

/-- Unfolding of a non-help ls invocation: ready, the target loop's
events, and a final Ok only when no target failed. -/
theorem lsMain_eq {σ : Type} (cx : Ctx σ) (s0 : σ) (hh : cx.help = false) :
    lsMain cx s0 = Evt.ready ::
      ((lsRunTargets cx s0 (cx.args.getD [cx.pwd])).2.1 ++
        (if (lsRunTargets cx s0 (cx.args.getD [cx.pwd])).2.2 = true
         then [Evt.closeOk] else [])) := by
  simp only [lsMain, hh, Bool.false_eq_true, if_false]

/-- Every list or stat call of a non-help ls invocation is on the resolved
path of one of its targets. -/
theorem lsMain_touches {σ : Type} (cx : Ctx σ) (s0 : σ) (hh : cx.help = false) :
    ∀ ev ∈ lsMain cx s0, evTouchesOnly ((cx.args.getD [cx.pwd]).map (pathAbs cx.pwd)) ev := by
  intro ev hev
  rw [lsMain_eq cx s0 hh] at hev
  rcases hr : lsRunTargets cx s0 (cx.args.getD [cx.pwd]) with ⟨s', evs, c⟩
  rw [hr] at hev
  simp only [List.mem_cons, List.mem_append] at hev
  rcases hev with rfl | hev | hev
  · simp [evTouchesOnly]
  · have := lsRunTargets_touches cx (cx.args.getD [cx.pwd]) s0 ev
    rw [hr] at this
    exact this hev
  · cases c with
    | true =>
      simp at hev
      subst hev
      simp [evTouchesOnly]
    | false => simp at hev

/-- The ls target loop reads nothing of the context's argument list: a
context differing only there runs identically. -/
theorem lsProcessTarget_setArgs {σ : Type} (cx : Ctx σ) (l : List String) (s : σ) (q : String) :
    lsProcessTarget (setArgs cx l) s q = lsProcessTarget cx s q := rfl

/-- The ls target loop is unchanged by replacing the context's argument
list. -/
theorem lsRunTargets_setArgs {σ : Type} (cx : Ctx σ) (l : List String) :
    ∀ (t : List String) (s : σ), lsRunTargets (setArgs cx l) s t = lsRunTargets cx s t := by
  intro t
  induction t with
  | nil => intro s; rfl
  | cons q qs ih =>
    intro s
    simp only [lsRunTargets, lsProcessTarget_setArgs]
    rcases hpt : lsProcessTarget cx s q with ⟨s', evs, c⟩
    cases c <;> simp [ih]

/-- C2: when some ls target fails with a non-TypeMismatch error (or its
fallback stat fails), the command closes with that error at once: the
whole trace coincides with the invocation that had no further targets, it
ends in the closeError, and no list or stat call of the invocation is on
any path other than the processed targets' resolved paths. -/
theorem C2_ls_aborts_on_hard_failure (σ : Type) (cx : Ctx σ) (s0 s1 : σ)
    (l₁ l₂ : List String) (p : String) (evs1 : List Evt) (e : AxErr)
    (hh : cx.help = false)
    (ha : cx.args = some (l₁ ++ p :: l₂))
    (hok : lsRunTargets cx s0 l₁ = (s1, evs1, true))
    (hfail : lsTargetErr cx s1 p = some e) :
    lsMain cx s0 = lsMain (setArgs cx (l₁ ++ [p])) s0 ∧
    (lsMain cx s0).getLast? = some (Evt.closeError e) ∧
    (∀ ev ∈ lsMain cx s0, evTouchesOnly ((l₁ ++ [p]).map (pathAbs cx.pwd)) ev) := by
  obtain ⟨s2, evs2, hpt, -, -⟩ := lsProcessTarget_of_err_some cx s1 p e hfail
  have hsingle : lsRunTargets cx s1 [p] = (s2, evs2 ++ [Evt.closeError e], false) := by
    simp only [lsRunTargets, hpt]
  have key : lsRunTargets cx s0 (l₁ ++ p :: l₂) = lsRunTargets cx s0 (l₁ ++ [p]) := by
    rw [lsRunTargets_append cx l₁ s0 s1 evs1 hok (p :: l₂),
        lsRunTargets_append cx l₁ s0 s1 evs1 hok [p],
        lsRunTargets_stop cx s1 p e hfail l₂]
  have hargs : cx.args.getD [cx.pwd] = l₁ ++ p :: l₂ := by rw [ha]; rfl
  have hargs' : (setArgs cx (l₁ ++ [p])).args.getD [(setArgs cx (l₁ ++ [p])).pwd] =
      l₁ ++ [p] := rfl
  have htrace : lsMain cx s0 = lsMain (setArgs cx (l₁ ++ [p])) s0 := by
    rw [lsMain_eq cx s0 hh, lsMain_eq (setArgs cx (l₁ ++ [p])) s0 hh]
    rw [hargs, hargs', key, lsRunTargets_setArgs]
  have hrun : lsRunTargets cx s0 (l₁ ++ [p]) =
      (s2, evs1 ++ (evs2 ++ [Evt.closeError e]), false) := by
    rw [lsRunTargets_append cx l₁ s0 s1 evs1 hok [p], hsingle]
  refine ⟨htrace, ?_, ?_⟩
  · rw [lsMain_eq cx s0 hh, hargs, key, hrun]
    simp only [Bool.false_eq_true, if_false, List.append_nil]
    rw [show Evt.ready :: (evs1 ++ (evs2 ++ [Evt.closeError e])) =
        (Evt.ready :: (evs1 ++ evs2)) ++ [Evt.closeError e] by simp]
    exact List.getLast?_concat _
  · intro ev hev
    rw [htrace] at hev
    have := lsMain_touches (setArgs cx (l₁ ++ [p])) s0 hh ev hev
    rw [hargs'] at this
    exact this

/-- The sorted key set of a stat entry, by presence of the signature. -/
theorem statKeys_eq (st : StatEntry) :
    statKeys st = if st.signature.isSome then ["mode", "mtime", "signature", "size"]
      else ["mode", "mtime", "size"] := by
  cases h : st.signature <;> simp only [statKeys, objKeys, h, Option.isSome] <;> decide

/-- Any mode other than exactly Path.Mode.X filters the signature key
out. -/
theorem signature_not_mem_of_ne {st : StatEntry} (h : st.mode ≠ ModeX) :
    "signature" ∉ statFieldKeys st := by
  have hx : st.mode ^^^ ModeX ≠ 0 := fun h0 => h (Nat.xor_eq_zero.mp h0)
  simp only [statFieldKeys, if_neg h, if_pos hx]
  intro hmem
  have h2 := (List.mem_filter.mp hmem).2
  simp at h2

/-- C3: formatStat of an executable-mode entry (the mode classifies it as
executable, that is, it equals Path.Mode.X) yields exactly one field,
signature — the whole output is that one rendered pair — while for any
entry whose mode does not indicate executable the signature key never
appears among the rendered fields. -/
theorem C3_signature_only_for_executables : ∀ (lt : Nat → String) (st : StatEntry),
    (st.mode = ModeX → statFieldKeys st = ["signature"] ∧
      formatStat lt st = renderStatField lt st "signature") ∧
    (st.mode ≠ ModeX → "signature" ∉ statFieldKeys st) := by
  intro lt st
  constructor
  · intro h
    constructor
    · simp [statFieldKeys, h]
    · simp [formatStat, statFieldKeys, h, joinComma]
  · intro h
    exact signature_not_mem_of_ne h

/-- The localized-time renderer used by the concrete witnesses. -/
def timeZero : Nat → String := fun _ => "00:00:00"

/-- A concrete executable stat entry. -/
def exStatX : StatEntry := ⟨ModeX, 0, 10, some "sg"⟩

/-- A concrete plain-file stat entry (readable, not executable). -/
def exStatFile : StatEntry := ⟨ModeR, 0, 0, none⟩

/-- An executable directory: the executable bit combined with the
directory bit. -/
def exStatXD : StatEntry := ⟨ModeX ||| ModeD, 0, 7, some "sg"⟩

theorem C3_witness :
    statFieldKeys exStatX = ["signature"] ∧
    formatStat timeZero exStatX = renderStatField timeZero exStatX "signature" ∧
    "signature" ∉ statFieldKeys exStatFile :=
  ⟨((C3_signature_only_for_executables timeZero exStatX).1 rfl).1,
   ((C3_signature_only_for_executables timeZero exStatX).1 rfl).2,
   (C3_signature_only_for_executables timeZero exStatFile).2 (by decide)⟩

/-- C10: formatStat takes the signature-only branch exactly when the mode
equals Path.Mode.X: a mode combining the executable bit with any other bit
excludes the signature from the output, and so does a mode without the
executable bit. -/
theorem C10_signature_branch_needs_exact_mode : ∀ (st : StatEntry),
    (statFieldKeys st = ["signature"] ↔ st.mode = ModeX) ∧
    (st.mode &&& ModeX ≠ 0 → st.mode ≠ ModeX → "signature" ∉ statFieldKeys st) ∧
    (st.mode &&& ModeX = 0 → "signature" ∉ statFieldKeys st) := by
  intro st
  refine ⟨⟨?_, ?_⟩, ?_, ?_⟩
  · intro heq
    by_contra hm
    have := signature_not_mem_of_ne hm
    rw [heq] at this
    exact this (by simp)
  · intro h
    simp [statFieldKeys, h]
  · intro _ hne
    exact signature_not_mem_of_ne hne
  · intro h0
    have hne : st.mode ≠ ModeX := by
      intro h
      rw [h] at h0
      simp [ModeX] at h0
    exact signature_not_mem_of_ne hne

theorem C10_witness :
    "signature" ∉ statFieldKeys exStatXD ∧
    "signature" ∉ statFieldKeys exStatFile ∧
    (statFieldKeys exStatX = ["signature"] ↔ exStatX.mode = ModeX) :=
  ⟨(C10_signature_branch_needs_exact_mode exStatXD).2.1 (by decide) (by decide),
   (C10_signature_branch_needs_exact_mode exStatFile).2.2 (by decide),
   (C10_signature_branch_needs_exact_mode exStatX).1⟩

/-- C4: at the failing input mtime = 0 (1970-01-01T00:00:00Z, a Thursday)
the source renders the DD component of the date from getDay() — the
day-of-week index 4 — although the calendar day of the month is 1: the
formatted stat shows 1970-01-04 where the claim (and the spec's stated
intent) requires 1970-01-01. -/
theorem C4_mtime_uses_weekday_not_day_of_month :
    formatStat timeZero exStatFile =
      "mode: \"r\", mtime: \"1970-01-04 00:00:00\", size: 0" ∧
    mtimeString timeZero 0 = "1970-01-04 00:00:00" ∧
    getDay 0 = 4 ∧ getDate 0 = 1 := by
  refine ⟨?_, ?_, ?_, ?_⟩ <;> decide

/-- Decidable equality of fallible results, for the concrete witnesses. -/
instance exceptDecEq {α β : Type} [DecidableEq α] [DecidableEq β] :
    DecidableEq (Except α β) := fun x y =>
  match x, y with
  | Except.error a, Except.error b =>
    if h : a = b then isTrue (by rw [h])
    else isFalse (fun hc => h (by injection hc))
  | Except.error _, Except.ok _ => isFalse (fun hc => Except.noConfusion hc)
  | Except.ok _, Except.error _ => isFalse (fun hc => Except.noConfusion hc)
  | Except.ok a, Except.ok b =>
    if h : a = b then isTrue (by rw [h])
    else isFalse (fun hc => h (by injection hc))

/-- Unfolding of a non-help mkdir invocation with targets. -/
theorem mkdirMain_eq {σ : Type} (cx : Ctx σ) (s0 : σ) (l : List String)
    (ha : cx.args = some l) (hne : l ≠ []) (hh : cx.help = false) :
    mkdirMain cx s0 = Evt.ready :: ((mkdirRun cx s0 l).evts ++
      [if (mkdirRun cx s0 l).errs then Evt.closeError mkdirFailErr else Evt.closeOk]) := by
  have hl : cx.args.getD [] = l := by rw [ha]; rfl
  have hcond : ¬(l.length = 0 ∨ cx.help = true) := by
    rw [hh]
    simp [List.length_eq_zero, hne]
  simp only [mkdirMain, hl, if_neg hcond]

/-- C5: a non-help mkdir invocation with targets attempts every target in
argument order (one mkdir call per target, resolved, in order, none
skipped), writes the error line naming each failing target while still
continuing, and finally closes with the aggregate Runtime error exactly
when some target failed and Ok when all succeeded. -/
theorem C5_mkdir_continues_after_failures (σ : Type) (cx : Ctx σ) (s0 : σ) (l : List String)
    (ha : cx.args = some l) (hne : l ≠ []) (hh : cx.help = false) :
    (mkdirMain cx s0).filter isMkdirOp =
      l.map (fun q => Evt.mkdirOp (pathAbs cx.pwd q)) ∧
    (∀ q e, (q, Except.error e) ∈ (mkdirRun cx s0 l).results →
      Evt.write (mkdirErrLine q e) ∈ mkdirMain cx s0) ∧
    ((mkdirRun cx s0 l).results.map Prod.fst = l) ∧
    (mkdirMain cx s0).getLast? =
      some (if (mkdirRun cx s0 l).results.any (fun r => isErrRes r.2)
            then Evt.closeError mkdirFailErr else Evt.closeOk) := by
  obtain ⟨-, h2, h3, h4, h5⟩ := mkdirRun_spec cx l s0
  rw [mkdirMain_eq cx s0 l ha hne hh]
  refine ⟨?_, ?_, h4, ?_⟩
  · cases herr : (mkdirRun cx s0 l).errs <;>
      simp [herr, List.filter_cons, List.filter_append, isMkdirOp, h2]
  · intro q e hmem
    exact List.mem_cons_of_mem _ (List.mem_append_left _ (h5 q e hmem))
  · have hsplit : Evt.ready :: ((mkdirRun cx s0 l).evts ++
        [if (mkdirRun cx s0 l).errs then Evt.closeError mkdirFailErr else Evt.closeOk]) =
      (Evt.ready :: (mkdirRun cx s0 l).evts) ++
        [if (mkdirRun cx s0 l).errs then Evt.closeError mkdirFailErr
         else Evt.closeOk] := rfl
    rw [hsplit, List.getLast?_concat, h3]

/-- A Duplicate failure used by the concrete witnesses. -/
def dupErr : AxErr := ⟨ErrKind.Duplicate, "directory exists"⟩

/-- A context whose mkdir oracle rejects the resolved path of its second
target and accepts the others. -/
def mkCtx : Ctx Unit := {
  args := some ["a", "b", "c"], help := false, file := false, pwd := "/",
  lt := timeZero,
  fsList := fun s _ => (s, Except.ok []),
  fsStat := fun s _ => (s, Except.ok exStatFile),
  fsMkdir := fun s p => (s, if p = "/b" then Except.error dupErr else Except.ok ()),
  fsMove := fun s _ _ => (s, Except.ok ()),
  fsWrite := fun s _ _ => (s, Except.ok ()),
  selection := none }

theorem C5_witness :
    (mkdirMain mkCtx ()).filter isMkdirOp =
      [Evt.mkdirOp "/a", Evt.mkdirOp "/b", Evt.mkdirOp "/c"] ∧
    Evt.write (mkdirErrLine "b" dupErr) ∈ mkdirMain mkCtx () ∧
    (mkdirMain mkCtx ()).getLast? = some (Evt.closeError mkdirFailErr) := by
  have h := C5_mkdir_continues_after_failures Unit mkCtx () ["a", "b", "c"] rfl
    (by decide) rfl
  exact ⟨h.1.trans (by decide), h.2.1 "b" dupErr (by decide), h.2.2.2.trans (by decide)⟩

/-- C6: an mv invocation with a positional-argument count other than two
writes the usage text and closes Ok without any move; with exactly two
(and no help flag) it performs exactly one move of the two paths resolved
against the working directory, closing Ok on success and with the
underlying error unchanged on failure. -/
theorem C6_mv_exactly_two_targets (σ : Type) (cx : Ctx σ) (s0 : σ) (l : List String)
    (ha : cx.args = some l) (hh : cx.help = false) :
    (l.length ≠ 2 → mvMain cx s0 = [Evt.ready, Evt.write mvUsage, Evt.closeOk] ∧
      ∀ f t, Evt.moveOp f t ∉ mvMain cx s0) ∧
    (∀ a b, l = [a, b] →
      (mvMain cx s0).filter isMoveOp =
        [Evt.moveOp (pathAbs cx.pwd a) (pathAbs cx.pwd b)] ∧
      ((cx.fsMove s0 (pathAbs cx.pwd a) (pathAbs cx.pwd b)).2 = Except.ok () →
        mvMain cx s0 = [Evt.ready,
          Evt.moveOp (pathAbs cx.pwd a) (pathAbs cx.pwd b), Evt.closeOk]) ∧
      (∀ e, (cx.fsMove s0 (pathAbs cx.pwd a) (pathAbs cx.pwd b)).2 = Except.error e →
        mvMain cx s0 = [Evt.ready,
          Evt.moveOp (pathAbs cx.pwd a) (pathAbs cx.pwd b), Evt.closeError e])) := by
  have hl : cx.args.getD [] = l := by rw [ha]; rfl
  constructor
  · intro hlen
    have hcond : l.length ≠ 2 ∨ cx.help = true := Or.inl hlen
    constructor
    · simp only [mvMain, hl, if_pos hcond]
    · intro f t hmem
      simp only [mvMain, hl, if_pos hcond] at hmem
      simp at hmem
  · intro a b hab
    subst hab
    have hcond : ¬([a, b].length ≠ 2 ∨ cx.help = true) := by
      rw [hh]
      simp
    refine ⟨?_, ?_, ?_⟩
    · simp only [mvMain, hl, if_neg hcond, List.getD_cons_zero, List.getD_cons_succ]
      rcases hm : (cx.fsMove s0 (pathAbs cx.pwd a) (pathAbs cx.pwd b)).2 with e | u <;>
        simp [isMoveOp, List.filter]
    · intro hok
      simp only [mvMain, hl, if_neg hcond, List.getD_cons_zero, List.getD_cons_succ, hok]
    · intro e herr
      simp only [mvMain, hl, if_neg hcond, List.getD_cons_zero, List.getD_cons_succ, herr]

/-- A context carrying two mv targets whose move succeeds. -/
def mvCtx : Ctx Unit := {
  args := some ["x", "sub/y"], help := false, file := false, pwd := "/home",
  lt := timeZero,
  fsList := fun s _ => (s, Except.ok []),
  fsStat := fun s _ => (s, Except.ok exStatFile),
  fsMkdir := fun s _ => (s, Except.ok ()),
  fsMove := fun s _ _ => (s, Except.ok ()),
  fsWrite := fun s _ _ => (s, Except.ok ()),
  selection := none }

theorem C6_witness :
    (mvMain mvCtx ()).filter isMoveOp = [Evt.moveOp "/home/x" "/home/sub/y"] ∧
    mvMain mvCtx () = [Evt.ready, Evt.moveOp "/home/x" "/home/sub/y", Evt.closeOk] ∧
    mvMain (setArgs mvCtx ["x"]) () = [Evt.ready, Evt.write mvUsage, Evt.closeOk] := by
  have h := (C6_mv_exactly_two_targets Unit mvCtx () ["x", "sub/y"] rfl rfl).2
    "x" "sub/y" rfl
  have hu := (C6_mv_exactly_two_targets Unit (setArgs mvCtx ["x"]) () ["x"] rfl rfl).1
    (by decide)
  exact ⟨h.1.trans (by decide), (h.2.1 rfl).trans (by decide), hu.1⟩

/-- The Missing error of a canceled import. -/
def missingSelection : AxErr := ⟨ErrKind.Missing, "file selection"⟩

/-- C7: an import invocation whose file selection the user cancels (the
decoy input regains focus with no prior change event, so no selection was
delivered) removes its temporary UI elements and then closes with an Error
of kind Missing — the destroy strictly precedes the single close. -/
theorem C7_import_cancel_missing (σ : Type) (cx : Ctx σ) (s0 : σ)
    (hsel : cx.selection = none) (hh : cx.help = false)
    (hlen : (cx.args.getD []).length ≤ 1) :
    importMain cx s0 =
      [Evt.ready, Evt.createUI, Evt.destroyUI, Evt.closeError missingSelection] ∧
    missingSelection.kind = ErrKind.Missing := by
  have hcond : ¬(1 < (cx.args.getD []).length ∨ cx.help = true) := by
    rw [hh]
    simp [Nat.not_lt.mpr hlen]
  refine ⟨?_, rfl⟩
  simp only [importMain, if_neg hcond, hsel]
  rfl

/-- A context whose selection was canceled. -/
def impCancelCtx : Ctx Unit := {
  args := some [], help := false, file := false, pwd := "/",
  lt := timeZero,
  fsList := fun s _ => (s, Except.ok []),
  fsStat := fun s _ => (s, Except.ok exStatFile),
  fsMkdir := fun s _ => (s, Except.ok ()),
  fsMove := fun s _ _ => (s, Except.ok ()),
  fsWrite := fun s _ _ => (s, Except.ok ()),
  selection := none }

theorem C7_witness :
    importMain impCancelCtx () =
      [Evt.ready, Evt.createUI, Evt.destroyUI, Evt.closeError missingSelection] ∧
    missingSelection.kind = ErrKind.Missing :=
  C7_import_cancel_missing Unit impCancelCtx () rfl rfl (by decide)

theorem insertSorted_length (x : String) (l : List String) :
    (insertSorted x l).length = l.length + 1 := by
  induction l with
  | nil => rfl
  | cons y ys ih =>
    simp only [insertSorted]
    split <;> simp [ih]

theorem sortStrings_length (l : List String) : (sortStrings l).length = l.length := by
  induction l with
  | nil => rfl
  | cons x xs ih => simp [sortStrings, insertSorted_length, ih]

/-- Shape of a directory listing's output: the header — quoted path and
an entry-count phrase chosen by the number of entries — then the entry
lines, and nothing at all after the header of an empty directory. -/
theorem listDirOutput_shape (lt : Nat → String) (path : String) (lr : ListResult) :
    ∃ rest, listDirOutput lt path lr =
      "Listing of " ++ jsQuote path ++ ", " ++
        (if lr.length = 0 then "empty."
         else if lr.length = 1 then "1 entry:"
         else toString lr.length ++ " entries:") ++ "\n" ++ rest ∧
      (lr.length = 0 → rest = "") := by
  have hlen : (sortStrings (lr.map Prod.fst)).length = lr.length := by
    rw [sortStrings_length, List.length_map]
  rcases hns : sortStrings (lr.map Prod.fst) with _ | ⟨n0, ns⟩
  · rw [hns] at hlen
    have h0 : lr.length = 0 := hlen.symm
    refine ⟨"", ?_, fun _ => rfl⟩
    simp only [listDirOutput, hns, List.length_nil, if_pos rfl, h0, String.append_empty]
  · rw [hns] at hlen
    refine ⟨String.join ((n0 :: ns).map (fun name => dirEntryLine lt
      ((n0 :: ns).foldl (fun m n => if n.length > m then n.length else m) n0.length)
      name (jsLookup lr name))), ?_, ?_⟩
    · simp only [listDirOutput, hns, hlen]
    · intro h0
      rw [← hlen] at h0
      simp at h0

/-- C8: a successfully listed directory's header is "Listing of " and the
quoted path followed by "empty." (and nothing else) for zero entries,
"1 entry:" for exactly one, and the entry count with "entries:" for more
than one. -/
theorem C8_ls_header_counts : ∀ (lt : Nat → String) (path : String) (lr : ListResult),
    (lr.length = 0 → listDirOutput lt path lr =
      "Listing of " ++ jsQuote path ++ ", " ++ "empty." ++ "\n") ∧
    (lr.length = 1 → ∃ rest, listDirOutput lt path lr =
      "Listing of " ++ jsQuote path ++ ", " ++ "1 entry:" ++ "\n" ++ rest) ∧
    (1 < lr.length → ∃ rest, listDirOutput lt path lr =
      "Listing of " ++ jsQuote path ++ ", " ++ (toString lr.length ++ " entries:") ++
        "\n" ++ rest) := by
  intro lt path lr
  obtain ⟨rest, heq, hemp⟩ := listDirOutput_shape lt path lr
  refine ⟨?_, ?_, ?_⟩
  · intro h0
    rw [heq, hemp h0, h0, if_pos rfl, String.append_empty]
  · intro h1
    refine ⟨rest, ?_⟩
    rw [heq, h1, if_neg (by decide), if_pos rfl]
  · intro hgt
    refine ⟨rest, ?_⟩
    have h0 : lr.length ≠ 0 := by omega
    have h1 : lr.length ≠ 1 := by omega
    rw [heq, if_neg h0, if_neg h1]

theorem C8_witness :
    listDirOutput timeZero "/d" [] =
      "Listing of " ++ jsQuote "/d" ++ ", " ++ "empty." ++ "\n" ∧
    (∃ rest, listDirOutput timeZero "/d" [("a", exStatFile)] =
      "Listing of " ++ jsQuote "/d" ++ ", " ++ "1 entry:" ++ "\n" ++ rest) ∧
    (∃ rest, listDirOutput timeZero "/d" [("a", exStatFile), ("bb", exStatX)] =
      "Listing of " ++ jsQuote "/d" ++ ", " ++ (toString (2 : Nat) ++ " entries:") ++
        "\n" ++ rest) :=
  ⟨(C8_ls_header_counts timeZero "/d" []).1 rfl,
   (C8_ls_header_counts timeZero "/d" [("a", exStatFile)]).2.1 rfl,
   (C8_ls_header_counts timeZero "/d" [("a", exStatFile), ("bb", exStatX)]).2.2
     (by decide)⟩

/-- C9 counterexample: the single line the ls fallback writes for a
regular file is not the line a directory listing renders for an entry of
the same name and stat — the fallback separates name and stat with two
spaces, an entry line with its marker column, padding and three spaces.
The second conjunct exhibits the entry line as exactly what a one-entry
directory listing renders after its header. -/
theorem C9_counterexample :
    fallbackStatLine timeZero "/f" exStatFile ≠
      dirEntryLine timeZero 1 "f" exStatFile ∧
    listDirOutput timeZero "/d" [("f", exStatFile)] =
      "Listing of " ++ jsQuote "/d" ++ ", " ++ "1 entry:" ++ "\n" ++
        dirEntryLine timeZero 1 "f" exStatFile := by
  constructor
  · decide
  · decide

/-- C9 as amended: for an ls target that is a regular file (list fails
with TypeMismatch and the fallback stat succeeds) the command writes one
line — the base name, two spaces, then the formatted stat — sharing the
stat rendering with a directory entry line (both end in the same
formatted stat and newline) but not the entry line's marker-and-padding
layout. -/
theorem C9_fallback_line_format (σ : Type) (cx : Ctx σ) (s0 s1 s2 : σ)
    (spec : String) (st : StatEntry) (e : AxErr)
    (hh : cx.help = false) (ha : cx.args = some [spec])
    (hl : cx.fsList s0 (pathAbs cx.pwd spec) = (s1, Except.error e))
    (hk : e.kind = ErrKind.TypeMismatch)
    (hs : cx.fsStat s1 (pathAbs cx.pwd spec) = (s2, Except.ok st)) :
    lsMain cx s0 = [Evt.ready, Evt.listOp (pathAbs cx.pwd spec),
      Evt.statOp (pathAbs cx.pwd spec),
      Evt.write (fallbackStatLine cx.lt (pathAbs cx.pwd spec) st), Evt.closeOk] ∧
    fallbackStatLine cx.lt (pathAbs cx.pwd spec) st =
      getBaseName (pathAbs cx.pwd spec) ++ "  " ++ formatStat cx.lt st ++ "\n" ∧
    (∀ longest name, ∃ pre, dirEntryLine cx.lt longest name st =
      pre ++ (formatStat cx.lt st ++ "\n")) ∧
    (∃ pre, fallbackStatLine cx.lt (pathAbs cx.pwd spec) st =
      pre ++ (formatStat cx.lt st ++ "\n")) := by
  have hargs : cx.args.getD [cx.pwd] = [spec] := by rw [ha]; rfl
  have hpt : lsProcessTarget cx s0 spec = (s2,
      [Evt.listOp (pathAbs cx.pwd spec), Evt.statOp (pathAbs cx.pwd spec),
       Evt.write (fallbackStatLine cx.lt (pathAbs cx.pwd spec) st)], true) := by
    simp only [lsProcessTarget, hl, if_pos hk, hs]
  have hrun : lsRunTargets cx s0 [spec] = (s2,
      [Evt.listOp (pathAbs cx.pwd spec), Evt.statOp (pathAbs cx.pwd spec),
       Evt.write (fallbackStatLine cx.lt (pathAbs cx.pwd spec) st)], true) := by
    simp only [lsRunTargets, hpt, List.append_nil]
  refine ⟨?_, rfl, ?_, ?_⟩
  · rw [lsMain_eq cx s0 hh, hargs, hrun]
    rfl
  · intro longest name
    refine ⟨name ++ (if st.mode &&& ModeD ≠ 0 then "/" else " ") ++
      String.mk (List.replicate (longest - name.length) ' ') ++ "   ", ?_⟩
    simp [dirEntryLine, String.append_assoc]
  · refine ⟨getBaseName (pathAbs cx.pwd spec) ++ "  ", ?_⟩
    simp [fallbackStatLine, String.append_assoc]

/-- A TypeMismatch failure, as list reports for a non-directory. -/
def tmErr : AxErr := ⟨ErrKind.TypeMismatch, "not a directory"⟩

/-- A context whose single ls target is a regular file: list rejects it
with TypeMismatch and stat delivers the entry. -/
def fileCtx : Ctx Unit := {
  args := some ["f"], help := false, file := false, pwd := "/",
  lt := timeZero,
  fsList := fun s _ => (s, Except.error tmErr),
  fsStat := fun s _ => (s, Except.ok exStatFile),
  fsMkdir := fun s _ => (s, Except.ok ()),
  fsMove := fun s _ _ => (s, Except.ok ()),
  fsWrite := fun s _ _ => (s, Except.ok ()),
  selection := none }

theorem C9_witness :
    lsMain fileCtx () = [Evt.ready, Evt.listOp "/f", Evt.statOp "/f",
      Evt.write (fallbackStatLine timeZero "/f" exStatFile), Evt.closeOk] ∧
    (∃ pre, dirEntryLine timeZero 1 "f" exStatFile =
      pre ++ (formatStat timeZero exStatFile ++ "\n")) := by
  have h := C9_fallback_line_format Unit fileCtx () () () "f" exStatFile tmErr
    rfl rfl rfl rfl rfl
  exact ⟨h.1.trans (by decide), h.2.2.1 1 "f"⟩

/-- A NotFound failure, for the aborting ls witness. -/
def nfErr : AxErr := ⟨ErrKind.NotFound, "missing"⟩

/-- A context whose second ls target fails hard (NotFound) while the
first and third would list fine. -/
def lsAbortCtx : Ctx Unit := {
  args := some ["ok1", "bad", "z"], help := false, file := false, pwd := "/",
  lt := timeZero,
  fsList := fun s p => (s, if p = "/bad" then Except.error nfErr else Except.ok []),
  fsStat := fun s _ => (s, Except.ok exStatFile),
  fsMkdir := fun s _ => (s, Except.ok ()),
  fsMove := fun s _ _ => (s, Except.ok ()),
  fsWrite := fun s _ _ => (s, Except.ok ()),
  selection := none }

theorem C2_witness :
    lsMain lsAbortCtx () = lsMain (setArgs lsAbortCtx ["ok1", "bad"]) () ∧
    (lsMain lsAbortCtx ()).getLast? = some (Evt.closeError nfErr) ∧
    (∀ ev ∈ lsMain lsAbortCtx (),
      evTouchesOnly (["ok1", "bad"].map (pathAbs "/")) ev) := by
  have h := C2_ls_aborts_on_hard_failure Unit lsAbortCtx () () ["ok1"] ["z"] "bad"
    [Evt.listOp "/ok1", Evt.write "Listing of \"/ok1\", empty.\n"] nfErr
    rfl rfl (by decide) (by decide)
  exact ⟨h.1, h.2.1, h.2.2⟩
